import Mathlib

/-!
# Verification of the `leelo` Elo rating utility

A shallow embedding of `src/lib.rs`: player ratings (`f64` in the source) are
modelled as real numbers, the `HashMap<String, f64>` table as an association
list with overwrite-on-insert semantics, and fallible operations return
`Except String`.  The Elo arithmetic of `update_ratings` is transcribed
literally, with `Real.exp` standing for `f64::exp`.
-/

open Real

namespace Leelo

/-- The constant `INITIAL_RATING: f64 = 1000.` of src/lib.rs:11. -/
def INITIAL_RATING : ℝ := 1000

/-- The constant `RATING_CONST: f64 = 182.047845` of src/lib.rs:14. -/
def RATING_CONST : ℝ := 182.047845

/-- The constant `K: f64 = 40.` of src/lib.rs:15 (rating sensitivity). -/
def K : ℝ := 40

/-- The enum `MatchResult` of src/lib.rs:17-21, with variants WhiteWin,
BlackWin and Draw. -/
inductive MatchResult where
  | WhiteWin
  | BlackWin
  | Draw
deriving DecidableEq

/-- The in-memory `HashMap<String, f64>`, modelled as an association list.
The list order stands for the map's (arbitrary) iteration order. -/
abbrev Table := List (String × ℝ)

/-- Lookup, as `HashMap::get`: the value stored under a key (first binding
wins). -/
def lookupRating : Table → String → Option ℝ
  | [], _ => none
  | (k, v) :: rest, id => if k = id then some v else lookupRating rest id

/-- Insertion, as `HashMap::insert`: overwrite the binding for a present key,
otherwise add a new binding. -/
def insertRating : Table → String → ℝ → Table
  | [], k, v => [(k, v)]
  | (k', v') :: rest, k, v =>
      if k' = k then (k, v) :: rest else (k', v') :: insertRating rest k v

/-- The function `create_player` of src/lib.rs:136-145: an occupied entry
fails, a vacant entry gets `INITIAL_RATING`. -/
def create_player (player_id : String) (data : Table) : Except String Table :=
  match lookupRating data player_id with
  | some _ => .error "player_id already in use."
  | none => .ok (insertRating data player_id INITIAL_RATING)

/-- The score pair of src/lib.rs:165-169: `(white_score, black_score)`. -/
def score : MatchResult → ℝ × ℝ
  | .WhiteWin => (1, 0)
  | .BlackWin => (0, 1)
  | .Draw => (0.5, 0.5)

/-- The expected-score formula of src/lib.rs:161-162:
`1. / (f64::exp(-rating_difference / RATING_CONST) + 1.)`. -/
noncomputable def white_score_expected (white_rating black_rating : ℝ) : ℝ :=
  1 / (Real.exp (-(white_rating - black_rating) / RATING_CONST) + 1)

/-- The pure Elo computation of src/lib.rs:161-174, from the two looked-up
ratings and the result to the pair of new ratings. -/
noncomputable def compute_updated_ratings (white_rating black_rating : ℝ)
    (result : MatchResult) : ℝ × ℝ :=
  let white_expected := white_score_expected white_rating black_rating
  let black_expected := 1 - white_expected
  let white_score := (score result).1
  let black_score := (score result).2
  let white_rating_change := K * (white_score - white_expected)
  let black_rating_change := K * (black_score - black_expected)
  (white_rating + white_rating_change, black_rating + black_rating_change)

/-- The function `update_ratings` of src/lib.rs:147-180: look up both players
(white first), compute the new ratings, insert white's then black's. -/
noncomputable def update_ratings (white_player_id black_player_id : String)
    (result : MatchResult) (data : Table) : Except String Table :=
  match lookupRating data white_player_id with
  | none => .error "white player not found."
  | some white_rating =>
    match lookupRating data black_player_id with
    | none => .error "black player not found."
    | some black_rating =>
      let new := compute_updated_ratings white_rating black_rating result
      .ok (insertRating (insertRating data white_player_id new.1)
            black_player_id new.2)

/-- The function `read_to_hashmap` of src/lib.rs:112-121: insert each parsed
row, in file order, into the given map.  A row is a `(player_id, rating)`
pair. -/
def read_to_hashmap (rows : List (String × ℝ)) (data : Table) : Table :=
  rows.foldl (fun d p => insertRating d p.1 p.2) data

/-- The `Operation::Update` branch of `run` (src/lib.rs:207-217): read the
file into an empty map, update, and write the result back.  The returned
table is what `write_to_csv` persists; on error nothing is written. -/
noncomputable def run_update (white_player_id black_player_id : String)
    (result : MatchResult) (file : List (String × ℝ)) :
    Except String (List (String × ℝ)) :=
  update_ratings white_player_id black_player_id result (read_to_hashmap file [])

/-- The file contents after the `Update` invocation: the new table on
success, the untouched old file on error (no write happens). -/
noncomputable def file_after_update (white_player_id black_player_id : String)
    (result : MatchResult) (file : List (String × ℝ)) : List (String × ℝ) :=
  match run_update white_player_id black_player_id result file with
  | .ok data => data
  | .error _ => file

/-- The `Operation::AddPlayer` branch of `run` (src/lib.rs:218-224). -/
def run_add_player (player_id : String) (file : List (String × ℝ)) :
    Except String (List (String × ℝ)) :=
  create_player player_id (read_to_hashmap file [])

/-- The sort of the `Operation::View` branch (src/lib.rs:230-231): the
collected entries are stably sorted so that higher ratings come first,
comparing only the rating components. -/
noncomputable def view_standings (data : Table) : Table :=
  data.mergeSort (fun p q => decide (q.2 ≤ p.2))

/-! ## Lemmas about the table operations -/

lemma lookupRating_append (l1 l2 : Table) (j : String) :
    lookupRating (l1 ++ l2) j =
      match lookupRating l1 j with
      | some v => some v
      | none => lookupRating l2 j := by
  induction l1 with
  | nil => simp [lookupRating]
  | cons p rest ih =>
    obtain ⟨k, v⟩ := p
    by_cases h : k = j <;> simp [lookupRating, h, ih]

lemma lookupRating_insert (data : Table) (k : String) (v : ℝ) (j : String) :
    lookupRating (insertRating data k v) j =
      if j = k then some v else lookupRating data j := by
  induction data with
  | nil =>
    by_cases hj : j = k
    · subst hj
      simp [insertRating, lookupRating]
    · have hkj : ¬ k = j := fun h => hj h.symm
      simp [insertRating, lookupRating, hj, hkj]
  | cons p rest ih =>
    obtain ⟨k', v'⟩ := p
    by_cases hk : k' = k
    · subst hk
      by_cases hj : j = k'
      · subst hj
        simp [insertRating, lookupRating]
      · have hkj : ¬ k' = j := fun h => hj h.symm
        simp [insertRating, lookupRating, hj, hkj]
    · by_cases hj : k' = j
      · subst hj
        have hjk : ¬ k' = k := hk
        simp [insertRating, lookupRating, hk, hjk, fun h : k' = k => hk h]
      · simp [insertRating, lookupRating, hk, hj, ih]

lemma read_to_hashmap_lookup (rows : List (String × ℝ)) (acc : Table) (id : String) :
    lookupRating (read_to_hashmap rows acc) id =
      match lookupRating rows.reverse id with
      | some v => some v
      | none => lookupRating acc id := by
  induction rows generalizing acc with
  | nil => simp [read_to_hashmap, lookupRating]
  | cons p rows ih =>
    obtain ⟨k, v⟩ := p
    have step : read_to_hashmap ((k, v) :: rows) acc =
        read_to_hashmap rows (insertRating acc k v) := rfl
    rw [step, ih, List.reverse_cons, lookupRating_append]
    cases h : lookupRating rows.reverse id with
    | some w => simp
    | none =>
      by_cases hid : id = k
      · subst hid
        simp [lookupRating, lookupRating_insert]
      · have hki : ¬ k = id := fun h => hid h.symm
        simp [lookupRating, lookupRating_insert, hid, hki]

lemma compute_sum (w b : ℝ) (o : MatchResult) :
    (compute_updated_ratings w b o).1 + (compute_updated_ratings w b o).2 = w + b := by
  cases o <;> simp [compute_updated_ratings, white_score_expected, score] <;> ring

lemma one_sub_inv_exp (z : ℝ) :
    1 - 1 / (Real.exp (-z) + 1) = 1 / (Real.exp z + 1) := by
  have h1 : Real.exp (-z) + 1 ≠ 0 := by positivity
  have h2 : Real.exp z + 1 ≠ 0 := by positivity
  have h3 : Real.exp z ≠ 0 := (Real.exp_pos z).ne'
  rw [Real.exp_neg]
  field_simp
  ring

/-! ## The claims -/

/-- C1: for every pair of ratings and every outcome, the Elo update of
`update_ratings` is zero-sum: the pair of new ratings it computes sums to the
sum of the old pair, and when both players exist the two stored ratings sum
to the sum of the two old ratings. -/
theorem zero_sum_update :
    (∀ (w b : ℝ) (o : MatchResult),
      (compute_updated_ratings w b o).1 + (compute_updated_ratings w b o).2 = w + b) ∧
    (∀ (data : Table) (wid bid : String) (o : MatchResult) (wr br : ℝ),
      wid ≠ bid →
      lookupRating data wid = some wr → lookupRating data bid = some br →
      ∃ d nw nb, update_ratings wid bid o data = .ok d ∧
        lookupRating d wid = some nw ∧ lookupRating d bid = some nb ∧
        nw + nb = wr + br) := by
  refine ⟨compute_sum, ?_⟩
  intro data wid bid o wr br hne hw hb
  refine ⟨insertRating (insertRating data wid (compute_updated_ratings wr br o).1)
      bid (compute_updated_ratings wr br o).2,
    (compute_updated_ratings wr br o).1, (compute_updated_ratings wr br o).2,
    ?_, ?_, ?_, compute_sum wr br o⟩
  · simp [update_ratings, hw, hb]
  · rw [lookupRating_insert, if_neg hne, lookupRating_insert, if_pos rfl]
  · rw [lookupRating_insert, if_pos rfl]

/-- C1 witness at a concrete table and outcome. -/
theorem zero_sum_update_witness :
    ("A" : String) ≠ "B" ∧
    ∃ d nw nb,
      update_ratings "A" "B" .WhiteWin [("A", (1000 : ℝ)), ("B", (1200 : ℝ))] = .ok d ∧
      lookupRating d "A" = some nw ∧ lookupRating d "B" = some nb ∧
      nw + nb = 1000 + 1200 :=
  ⟨by decide,
   zero_sum_update.2 [("A", 1000), ("B", 1200)] "A" "B" .WhiteWin 1000 1200
     (by decide) rfl rfl⟩

/-- C3: `create_player` on an identifier already present fails with the
duplicate-identifier error; on a fresh identifier it succeeds, maps that
identifier to `INITIAL_RATING` and leaves every other identifier's rating
unchanged. -/
theorem create_player_spec (data : Table) (id : String) :
    ((∃ r, lookupRating data id = some r) →
      create_player id data = .error "player_id already in use.") ∧
    (lookupRating data id = none →
      ∃ d, create_player id data = .ok d ∧
        lookupRating d id = some INITIAL_RATING ∧
        ∀ j, j ≠ id → lookupRating d j = lookupRating data j) := by
  constructor
  · rintro ⟨r, hr⟩
    simp [create_player, hr]
  · intro h
    refine ⟨insertRating data id INITIAL_RATING, ?_, ?_, ?_⟩
    · simp [create_player, h]
    · rw [lookupRating_insert, if_pos rfl]
    · intro j hj
      rw [lookupRating_insert, if_neg hj]

/-- C3 witness: duplicate "A" rejected, fresh "B" created at 1000. -/
theorem create_player_spec_witness :
    create_player "A" [("A", (1000 : ℝ))] = .error "player_id already in use." ∧
    ∃ d, create_player "B" [("A", (1000 : ℝ))] = .ok d ∧
      lookupRating d "B" = some INITIAL_RATING ∧
      ∀ j, j ≠ "B" → lookupRating d j = lookupRating [("A", (1000 : ℝ))] j :=
  ⟨(create_player_spec [("A", 1000)] "A").1 ⟨1000, rfl⟩,
   (create_player_spec [("A", 1000)] "B").2 rfl⟩

/-- C9: loading rows with a repeated identifier never fails and the loaded
table maps each identifier to the rating of its last occurrence in the file
(the first occurrence in the reversed row list). -/
theorem read_duplicate_rows_last_wins (rows : List (String × ℝ)) (id : String) :
    lookupRating (read_to_hashmap rows []) id = lookupRating rows.reverse id := by
  rw [read_to_hashmap_lookup]
  cases h : lookupRating rows.reverse id <;> simp [lookupRating]

/-- C4: at equal ratings a white win moves white up by exactly `K/2 = 20` and
black down by 20; concretely, two new players start at 1000 and after a 1-0
game the winner is at 1020 and the loser at 980. -/
theorem equal_ratings_white_win :
    (∀ a b : ℝ, a = b →
      compute_updated_ratings a b .WhiteWin = (a + 20, b - 20)) ∧
    (∃ t1 t2 t3,
      run_add_player "Alice" [] = .ok t1 ∧
      lookupRating t1 "Alice" = some INITIAL_RATING ∧
      run_add_player "Bob" t1 = .ok t2 ∧
      lookupRating t2 "Alice" = some 1000 ∧
      lookupRating t2 "Bob" = some 1000 ∧
      run_update "Alice" "Bob" .WhiteWin t2 = .ok t3 ∧
      lookupRating t3 "Alice" = some 1020 ∧
      lookupRating t3 "Bob" = some 980) := by
  have hgen : ∀ a b : ℝ, a = b →
      compute_updated_ratings a b .WhiteWin = (a + 20, b - 20) := by
    intro a b h
    subst h
    simp only [compute_updated_ratings, white_score_expected, score, K, sub_self,
      neg_zero, zero_div, Real.exp_zero, Prod.mk.injEq]
    norm_num
    ring
  refine ⟨hgen, [("Alice", 1000)], [("Alice", 1000), ("Bob", 1000)],
    [("Alice", 1020), ("Bob", 980)], rfl, rfl, rfl, rfl, rfl, ?_, rfl, rfl⟩
  have hc : run_update "Alice" "Bob" .WhiteWin [("Alice", 1000), ("Bob", 1000)] =
      .ok [("Alice", (compute_updated_ratings 1000 1000 .WhiteWin).1),
           ("Bob", (compute_updated_ratings 1000 1000 .WhiteWin).2)] := rfl
  rw [hc, hgen 1000 1000 rfl]
  norm_num

/-- C4 witness: the general part instantiated at equal ratings 1000. -/
theorem equal_ratings_white_win_witness :
    compute_updated_ratings 1000 1000 .WhiteWin = ((1000 : ℝ) + 20, (1000 : ℝ) - 20) :=
  equal_ratings_white_win.1 1000 1000 rfl

/-- C5: the Elo update is antisymmetric under swapping the players and
flipping the outcome, and symmetric for a draw. -/
theorem update_antisymm (a b : ℝ) :
    compute_updated_ratings a b .WhiteWin =
      ((compute_updated_ratings b a .BlackWin).2,
       (compute_updated_ratings b a .BlackWin).1) ∧
    compute_updated_ratings a b .Draw =
      ((compute_updated_ratings b a .Draw).2,
       (compute_updated_ratings b a .Draw).1) := by
  have hku := one_sub_inv_exp ((a - b) / RATING_CONST)
  have e1 : -(b - a) / RATING_CONST = (a - b) / RATING_CONST := by ring
  have e2 : -(a - b) / RATING_CONST = -((a - b) / RATING_CONST) := by ring
  constructor <;>
    · simp only [compute_updated_ratings, white_score_expected, score, e1, e2,
        Prod.mk.injEq]
      exact ⟨by linear_combination K * hku, by linear_combination (-K) * hku⟩

/-- C8: a game recorded with the same identifier on both sides succeeds, the
expected score on each side is 1/2, and the black-side insert overwrites the
white-side one, so the stored rating becomes `r + K * (black_score - 1/2)`. -/
theorem self_game_update (data : Table) (id : String) (r : ℝ) (result : MatchResult)
    (h : lookupRating data id = some r) :
    ∃ d, update_ratings id id result data = .ok d ∧
      lookupRating d id = some (r + K * ((score result).2 - 1 / 2)) := by
  refine ⟨insertRating (insertRating data id (compute_updated_ratings r r result).1)
      id (compute_updated_ratings r r result).2, ?_, ?_⟩
  · simp [update_ratings, h]
  · rw [lookupRating_insert, if_pos rfl]
    congr 1
    simp only [compute_updated_ratings, white_score_expected, score, sub_self,
      neg_zero, zero_div, Real.exp_zero]
    norm_num

/-- C8 witness: a 1-0 self-game from rating 1000 stores exactly 980. -/
theorem self_game_update_witness :
    ∃ d, update_ratings "A" "A" .WhiteWin [("A", (1000 : ℝ))] = .ok d ∧
      lookupRating d "A" = some (980 : ℝ) := by
  obtain ⟨d, h1, h2⟩ := self_game_update [("A", 1000)] "A" 1000 .WhiteWin rfl
  refine ⟨d, h1, ?_⟩
  rw [h2]
  norm_num [K, score]

/-- C2: a game operation whose white or black identifier is absent from the
loaded table fails with the corresponding not-found error, and the persisted
file is exactly what it was before the call. -/
theorem update_unknown_id_fails (file : List (String × ℝ)) (w b : String)
    (result : MatchResult)
    (h : lookupRating (read_to_hashmap file []) w = none ∨
         lookupRating (read_to_hashmap file []) b = none) :
    (∃ e, run_update w b result file = .error e) ∧
    file_after_update w b result file = file := by
  have herr : ∃ e, run_update w b result file = .error e := by
    rcases h with hw | hb
    · exact ⟨"white player not found.", by simp [run_update, update_ratings, hw]⟩
    · cases hw2 : lookupRating (read_to_hashmap file []) w with
      | none =>
        exact ⟨"white player not found.", by simp [run_update, update_ratings, hw2]⟩
      | some r =>
        exact ⟨"black player not found.",
          by simp [run_update, update_ratings, hw2, hb]⟩
  obtain ⟨e, he⟩ := herr
  exact ⟨⟨e, he⟩, by simp [file_after_update, he]⟩

/-- C2 witness: recording a game against the unknown player "B" fails and
leaves the one-row file untouched. -/
theorem update_unknown_id_fails_witness :
    (∃ e, run_update "A" "B" .WhiteWin [("A", (1000 : ℝ))] = .error e) ∧
    file_after_update "A" "B" .WhiteWin [("A", (1000 : ℝ))] = [("A", (1000 : ℝ))] :=
  update_unknown_id_fails [("A", 1000)] "A" "B" .WhiteWin (Or.inr rfl)

/-- C7: the view operation lists the table's entries as a permutation of the
table, sorted by descending rating (ties in arbitrary order). -/
theorem view_standings_sorted (data : Table) :
    List.Sorted (fun p q : String × ℝ => q.2 ≤ p.2) (view_standings data) ∧
    (view_standings data).Perm data := by
  constructor
  · have htrans : ∀ a b c : String × ℝ,
        (fun p q : String × ℝ => decide (q.2 ≤ p.2)) a b →
        (fun p q : String × ℝ => decide (q.2 ≤ p.2)) b c →
        (fun p q : String × ℝ => decide (q.2 ≤ p.2)) a c := by
      intro a b c h1 h2
      simp only [decide_eq_true_eq] at h1 h2 ⊢
      exact le_trans h2 h1
    have htotal : ∀ a b : String × ℝ,
        ((fun p q : String × ℝ => decide (q.2 ≤ p.2)) a b ||
         (fun p q : String × ℝ => decide (q.2 ≤ p.2)) b a) := by
      intro a b
      simp only [Bool.or_eq_true, decide_eq_true_eq]
      exact le_total b.2 a.2
    have h := @List.sorted_mergeSort (String × ℝ)
      (fun p q : String × ℝ => decide (q.2 ≤ p.2)) htrans htotal data
    exact h.imp (by simp)
  · exact List.mergeSort_perm data _

/-! ## Numeric bounds for the rating constant

`200 / RATING_CONST = 40000000 / 36409569` and
`200 / (RATING_CONST + 10⁻⁶) = 100000000 / 91023923`; the three lemmas below
pin `exp` at these arguments against `3` by truncated Taylor series. -/

lemma exp_q_gt_three : (3 : ℝ) < Real.exp (40000000 / 36409569) := by
  have h := @Real.sum_le_exp_of_nonneg (40000000 / 36409569 : ℝ) (by norm_num) 13
  refine lt_of_lt_of_le ?_ h
  rw [Finset.sum_range_succ, Finset.sum_range_succ, Finset.sum_range_succ,
    Finset.sum_range_succ, Finset.sum_range_succ, Finset.sum_range_succ,
    Finset.sum_range_succ, Finset.sum_range_succ, Finset.sum_range_succ,
    Finset.sum_range_succ, Finset.sum_range_succ, Finset.sum_range_succ,
    Finset.sum_range_succ, Finset.sum_range_zero]
  norm_num [Nat.factorial]

lemma exp_quarter_q_le : Real.exp (10000000 / 36409569) ≤ 13160746 / 10000000 := by
  have hb := @Real.exp_bound' (10000000 / 36409569 : ℝ) (by norm_num) (by norm_num)
    10 (by norm_num)
  refine hb.trans ?_
  rw [Finset.sum_range_succ, Finset.sum_range_succ, Finset.sum_range_succ,
    Finset.sum_range_succ, Finset.sum_range_succ, Finset.sum_range_succ,
    Finset.sum_range_succ, Finset.sum_range_succ, Finset.sum_range_succ,
    Finset.sum_range_succ, Finset.sum_range_zero]
  norm_num [Nat.factorial]

lemma exp_q_lt_bound : Real.exp (40000000 / 36409569) < 750001 / 249999 := by
  have h4 : Real.exp (40000000 / 36409569 : ℝ) =
      Real.exp (10000000 / 36409569 : ℝ) ^ 4 := by
    rw [← Real.exp_nat_mul]
    norm_num
  rw [h4]
  calc Real.exp (10000000 / 36409569 : ℝ) ^ 4 ≤ (13160746 / 10000000 : ℝ) ^ 4 :=
        pow_le_pow_left₀ (Real.exp_nonneg _) exp_quarter_q_le 4
    _ < 750001 / 249999 := by norm_num

lemma exp_quarter_q1_le : Real.exp (25000000 / 91023923) ≤ 13160740123 / 10000000000 := by
  have hb := @Real.exp_bound' (25000000 / 91023923 : ℝ) (by norm_num) (by norm_num)
    10 (by norm_num)
  refine hb.trans ?_
  rw [Finset.sum_range_succ, Finset.sum_range_succ, Finset.sum_range_succ,
    Finset.sum_range_succ, Finset.sum_range_succ, Finset.sum_range_succ,
    Finset.sum_range_succ, Finset.sum_range_succ, Finset.sum_range_succ,
    Finset.sum_range_succ, Finset.sum_range_zero]
  norm_num [Nat.factorial]

lemma exp_q1_lt_three : Real.exp (100000000 / 91023923) < 3 := by
  have h4 : Real.exp (100000000 / 91023923 : ℝ) =
      Real.exp (25000000 / 91023923 : ℝ) ^ 4 := by
    rw [← Real.exp_nat_mul]
    norm_num
  rw [h4]
  calc Real.exp (25000000 / 91023923 : ℝ) ^ 4 ≤ (13160740123 / 10000000000 : ℝ) ^ 4 :=
        pow_le_pow_left₀ (Real.exp_nonneg _) exp_quarter_q1_le 4
    _ < 3 := by norm_num

lemma log_three_lt_q : Real.log 3 < (40000000 / 36409569 : ℝ) :=
  (Real.log_lt_iff_lt_exp (by norm_num)).2 exp_q_gt_three

lemma q1_lt_log_three : (100000000 / 91023923 : ℝ) < Real.log 3 :=
  (Real.lt_log_iff_exp_lt (by norm_num)).2 exp_q1_lt_three

/-- C6 counterexample: the constant `182.047845` in the code is not equal to
`200 / ln 3`, and a rating difference of exactly 200 does not give an
expected score of exactly 3/4. -/
theorem rating_const_not_canonical :
    RATING_CONST ≠ 200 / Real.log 3 ∧ white_score_expected 200 0 ≠ 3 / 4 := by
  have hq := log_three_lt_q
  constructor
  · intro h
    have hL : Real.log 3 ≠ 0 := ne_of_gt (Real.log_pos (by norm_num))
    have hRC : (200 : ℝ) / RATING_CONST = 40000000 / 36409569 := by
      norm_num [RATING_CONST]
    rw [h] at hRC
    have hinv : (200 : ℝ) / (200 / Real.log 3) = Real.log 3 := by
      field_simp
    rw [hinv] at hRC
    exact absurd hRC (ne_of_lt hq)
  · intro h
    unfold white_score_expected at h
    have harg : -((200 : ℝ) - 0) / RATING_CONST = -(40000000 / 36409569) := by
      norm_num [RATING_CONST]
    rw [harg, Real.exp_neg] at h
    have hpos : 0 < Real.exp (40000000 / 36409569 : ℝ) := Real.exp_pos _
    have hd : (Real.exp (40000000 / 36409569 : ℝ))⁻¹ + 1 ≠ 0 := by positivity
    have h3 : Real.exp (40000000 / 36409569 : ℝ) = 3 := by
      field_simp [hd] at h
      linarith
    have hlog : Real.log 3 = (40000000 / 36409569 : ℝ) := by
      rw [← h3, Real.log_exp]
    exact absurd hlog (ne_of_lt hq)

/-- C6 amended: the constant `RATING_CONST` is a decimal approximation of
`200 / ln 3`:
it lies strictly below `200 / ln 3` but within `10⁻⁶` of it, and a rating
difference of exactly 200 gives an expected score strictly above 3/4 but
within `10⁻⁶` of 3/4. -/
theorem rating_const_approx :
    RATING_CONST < 200 / Real.log 3 ∧
    200 / Real.log 3 < RATING_CONST + 1 / 1000000 ∧
    3 / 4 < white_score_expected 200 0 ∧
    white_score_expected 200 0 < 3 / 4 + 1 / 1000000 := by
  have hlogpos : 0 < Real.log 3 := Real.log_pos (by norm_num)
  have hq := log_three_lt_q
  have hq1 := q1_lt_log_three
  have hRCpos : (0 : ℝ) < RATING_CONST := by norm_num [RATING_CONST]
  refine ⟨?_, ?_, ?_, ?_⟩
  · rw [lt_div_iff₀ hlogpos]
    calc RATING_CONST * Real.log 3
        < RATING_CONST * (40000000 / 36409569) := mul_lt_mul_of_pos_left hq hRCpos
      _ = 200 := by norm_num [RATING_CONST]
  · rw [div_lt_iff₀ hlogpos]
    calc (200 : ℝ) = (RATING_CONST + 1 / 1000000) * (100000000 / 91023923) := by
          norm_num [RATING_CONST]
      _ < (RATING_CONST + 1 / 1000000) * Real.log 3 :=
          mul_lt_mul_of_pos_left hq1 (by norm_num [RATING_CONST])
  all_goals
    have hpos : 0 < Real.exp (40000000 / 36409569 : ℝ) := Real.exp_pos _
    have hEq : white_score_expected 200 0 =
        1 / ((Real.exp (40000000 / 36409569 : ℝ))⁻¹ + 1) := by
      unfold white_score_expected
      rw [show -((200 : ℝ) - 0) / RATING_CONST = -(40000000 / 36409569) by
        norm_num [RATING_CONST], Real.exp_neg]
    have hdpos : 0 < (Real.exp (40000000 / 36409569 : ℝ))⁻¹ + 1 := by positivity
    rw [hEq]
  · -- 3/4 < 1/(E⁻¹+1) since E⁻¹ < 1/3
    have hinv : (Real.exp (40000000 / 36409569 : ℝ))⁻¹ < 1 / 3 := by
      nlinarith [exp_q_gt_three, mul_inv_cancel₀ hpos.ne', inv_pos.2 hpos]
    rw [div_lt_div_iff₀ (by norm_num) hdpos]
    linarith
  · -- 1/(E⁻¹+1) < 750001/1000000 since E⁻¹ > 249999/750001
    have hmul : Real.exp (40000000 / 36409569 : ℝ) *
        (Real.exp (40000000 / 36409569 : ℝ))⁻¹ = 1 := mul_inv_cancel₀ hpos.ne'
    have hinv : (249999 / 750001 : ℝ) < (Real.exp (40000000 / 36409569 : ℝ))⁻¹ := by
      nlinarith [exp_q_lt_bound, inv_pos.2 hpos]
    have hfinal : (1 : ℝ) / ((Real.exp (40000000 / 36409569 : ℝ))⁻¹ + 1) <
        750001 / 1000000 := by
      rw [div_lt_div_iff₀ hdpos (by norm_num)]
      linarith
    calc (1 : ℝ) / ((Real.exp (40000000 / 36409569 : ℝ))⁻¹ + 1)
        < 750001 / 1000000 := hfinal
      _ = 3 / 4 + 1 / 1000000 := by norm_num

end Leelo
